import Mathlib

/-!
Shallow embedding of `filters/filters.go` from the `beats` repository.

The file defines the filter-identifier enumeration, the canonical name
table `FilterPluginNames`, the rendering function `Filter.String`, the
reverse lookup `FilterFromName`, and the process-wide registry
`FiltersList` with its `Register` and `Get` operations, then proves the
specified properties about them.
-/

namespace Beats

/-- Canonical list of filter plugin names, from `FilterPluginNames` in
`filters/filters.go` (declaration order: `"nop"`, `"sample"`). -/
def FilterPluginNames : List String := ["nop", "sample"]

/-- A `Filter` identifier is a Go `int`; embedded as `Int`. -/
abbrev Filter := Int

/-- The `NopFilter` enumeration constant (`iota` = 0). -/
def NopFilter : Filter := 0

/-- The `SampleFilter` enumeration constant (`iota` = 1). -/
def SampleFilter : Filter := 1

/-- `Filter.String` from `filters.go`: out-of-range identifiers render as
the sentinel `"impossible"`, in-range identifiers render as the canonical
name `FilterPluginNames[filter]`. -/
def Filter.String (filter : Filter) : String :=
  if h : filter < 0 ∨ (FilterPluginNames.length : Int) ≤ filter then
    "impossible"
  else
    FilterPluginNames.get ⟨filter.toNat, by
      push_neg at h
      have h1 : (0 : Int) ≤ filter := h.1
      have h2 : (filter : Int) < (FilterPluginNames.length : Int) := h.2
      omega⟩

/-- The loop of `FilterFromName`, generalized over the list still to be
scanned; `i` is the index of the head of that list in the full table.
On the first exact match it returns the index and a nil error; when the
scan ends it returns `-1` and the error message `"No filter named <name>"`
produced by `fmt.Errorf`. The error is embedded as `Option String`
(`none` = nil error). -/
def scanNames (name : String) : List String → Nat → Filter × Option String
  | [], _ => (-1, some ("No filter named " ++ name))
  | pluginname :: rest, i =>
      if name = pluginname then (Int.ofNat i, none)
      else scanNames name rest (i + 1)

/-- `FilterFromName` from `filters.go`: linear scan of `FilterPluginNames`
in declaration order. -/
def FilterFromName (name : String) : Filter × Option String :=
  scanNames name FilterPluginNames 0

/-- The registry state of `FiltersList` from `filters.go`: a map from
`Filter` to a registered plugin. A Go map lookup on a missing key yields
the zero value (nil interface), embedded as `none`; the plugin interface
type is abstracted as a type parameter `α`. -/
structure FiltersList (α : Type) where
  filters : Filter → Option α

/-- `FiltersList.Register` from `filters.go`: store `plugin` under
`filter`, overwriting any previous entry. -/
def FiltersList.Register {α : Type} (filters : FiltersList α)
    (filter : Filter) (plugin : α) : FiltersList α :=
  ⟨fun f => if f = filter then some plugin else filters.filters f⟩

/-- `FiltersList.Get` from `filters.go`: map lookup; a missing key yields
the zero value `none`. -/
def FiltersList.Get {α : Type} (filters : FiltersList α)
    (filter : Filter) : Option α :=
  filters.filters filter

/-- The registry as produced by `init()` in `filters.go`: an empty map. -/
def emptyFilters {α : Type} : FiltersList α := ⟨fun _ => none⟩

/-- Apply a sequence of `Register` calls, in order, to a registry state. -/
def applyRegistrations {α : Type} (s : FiltersList α) :
    List (Filter × α) → FiltersList α
  | [] => s
  | r :: rest => applyRegistrations (s.Register r.1 r.2) rest

/-! ### Helper lemmas -/

/-- Scanning a list that does not contain `name` ends with the `-1`
identifier and the formatted error message, whatever the start index. -/
theorem scanNames_of_notMem (name : String) (names : List String) (i : Nat)
    (h : name ∉ names) :
    scanNames name names i = (-1, some ("No filter named " ++ name)) := by
  induction names generalizing i with
  | nil => rfl
  | cons p rest ih =>
      rw [List.mem_cons, not_or] at h
      simp only [scanNames, if_neg h.1]
      exact ih (i + 1) h.2

/-- Scanning a list containing `name` from start index `i` yields the
identifier `i + k` and a nil error, where `k` is the least offset whose
entry equals `name`. -/
theorem scanNames_of_mem (name : String) (names : List String) (i : Nat)
    (h : name ∈ names) :
    ∃ k : Nat, scanNames name names i = (((i + k : Nat) : Int), none) ∧
      names[k]? = some name ∧ ∀ j < k, names[j]? ≠ some name := by
  induction names generalizing i with
  | nil => cases h
  | cons p rest ih =>
      by_cases hp : name = p
      · refine ⟨0, ?_, ?_, ?_⟩
        · simp [scanNames, hp]
        · simp [hp]
        · intro j hj
          exact absurd hj (Nat.not_lt_zero j)
      · have hmem : name ∈ rest := by
          rcases List.mem_cons.mp h with h1 | h1
          · exact absurd h1 hp
          · exact h1
        obtain ⟨k, hk1, hk2, hk3⟩ := ih (i + 1) hmem
        refine ⟨k + 1, ?_, ?_, ?_⟩
        · have harith : i + 1 + k = i + (k + 1) := by omega
          simp only [scanNames, if_neg hp]
          rw [hk1, harith]
        · simpa using hk2
        · intro j hj
          cases j with
          | zero =>
              simp only [List.getElem?_cons_zero]
              intro he
              exact hp (Option.some.inj he).symm
          | succ j' =>
              simpa using hk3 j' (Nat.lt_of_succ_lt_succ hj)

/-- A run of registrations that never touches `id` leaves the lookup at
`id` unchanged. -/
theorem applyRegistrations_get_of_notMem {α : Type} (regs : List (Filter × α))
    (s : FiltersList α) (id : Filter) (h : id ∉ regs.map Prod.fst) :
    (applyRegistrations s regs).Get id = s.Get id := by
  induction regs generalizing s with
  | nil => rfl
  | cons r rest ih =>
      rw [List.map_cons, List.mem_cons, not_or] at h
      simp only [applyRegistrations]
      rw [ih _ h.2]
      simp [FiltersList.Get, FiltersList.Register, h.1]

/-! ### Claim theorems -/

/-- C1: for every valid identifier `i` in `[0, len(FilterPluginNames))`,
resolving the canonical name back to an identifier is the identity:
`FilterFromName (i.String)` returns `(i, nil error)`. -/
theorem filterFromName_string_roundtrip (i : Int) (h0 : (0 : Int) ≤ i)
    (h1 : (i : Int) < (FilterPluginNames.length : Int)) :
    FilterFromName (Filter.String i) = (i, none) := by
  have hlen : (FilterPluginNames.length : Int) = 2 := by decide
  rw [hlen] at h1
  have hcases : i = (0 : Int) ∨ i = (1 : Int) := by omega
  rcases hcases with rfl | rfl <;> decide

/-- Witness for C1 at the concrete valid identifier `1`. -/
theorem filterFromName_string_roundtrip_witness :
    (0 : Int) ≤ (1 : Int) ∧ (1 : Int) < (FilterPluginNames.length : Int) ∧
      FilterFromName (Filter.String 1) = (1, none) :=
  ⟨by decide, by decide, filterFromName_string_roundtrip 1 (by decide) (by decide)⟩

/-- C2: for every name `n` not in `FilterPluginNames`, `FilterFromName n`
returns a non-nil error, namely the message `"No filter named " ++ n`,
which contains `n`. -/
theorem filterFromName_unknown (n : String) (h : n ∉ FilterPluginNames) :
    (FilterFromName n).2 = some ("No filter named " ++ n) ∧
      n.data <:+: ("No filter named " ++ n).data := by
  constructor
  · rw [FilterFromName, scanNames_of_notMem n FilterPluginNames 0 h]
  · refine ⟨"No filter named ".data, [], ?_⟩
    simp [String.data_append]

/-- Witness for C2 at the concrete unknown name `"bogus"`. -/
theorem filterFromName_unknown_witness :
    "bogus" ∉ FilterPluginNames ∧
      ((FilterFromName "bogus").2 = some ("No filter named " ++ "bogus") ∧
        "bogus".data <:+: ("No filter named " ++ "bogus").data) :=
  ⟨by decide, filterFromName_unknown "bogus" (by decide)⟩

/-- C3: `Filter.String` is total: any identifier outside
`[0, len(FilterPluginNames))` renders as the sentinel `"impossible"`,
which is not a real filter name, and any identifier inside the range
renders as the canonical name `FilterPluginNames[i]`. -/
theorem filter_string_total (i : Int) :
    ((i < 0 ∨ (FilterPluginNames.length : Int) ≤ i) →
        Filter.String i = "impossible") ∧
      "impossible" ∉ FilterPluginNames ∧
      ∀ (h0 : (0 : Int) ≤ i) (h1 : (i : Int) < (FilterPluginNames.length : Int)),
        Filter.String i = FilterPluginNames.get ⟨i.toNat, by omega⟩ := by
  refine ⟨?_, by decide, ?_⟩
  · intro h
    unfold Filter.String
    rw [dif_pos h]
  · intro h0 h1
    have hcond : ¬(i < 0 ∨ (FilterPluginNames.length : Int) ≤ i) := by
      push_neg
      exact ⟨h0, h1⟩
    unfold Filter.String
    rw [dif_neg hcond]

/-- Witness for C3 at the out-of-range identifier `99` and the in-range
identifier `1`. -/
theorem filter_string_total_witness :
    Filter.String 99 = "impossible" ∧ Filter.String 1 = "sample" := by
  constructor
  · exact (filter_string_total 99).1 (Or.inr (by decide))
  · exact ((filter_string_total 1).2.2 (by decide) (by decide)).trans rfl

/-- C4: registering twice under the same identifier raises no error and
the second registration wins: after `Register id A` then `Register id B`,
`Get id` returns `B`. -/
theorem register_overwrite {α : Type} (s : FiltersList α) (id : Filter)
    (A B : α) :
    ((s.Register id A).Register id B).Get id = some B := by
  simp [FiltersList.Get, FiltersList.Register]

/-- C5: looking up an identifier never registered by any of the performed
registrations returns the absent result `none`, not an error. -/
theorem get_unregistered {α : Type} (regs : List (Filter × α)) (id : Filter)
    (h : id ∉ regs.map Prod.fst) :
    (applyRegistrations emptyFilters regs).Get id = none := by
  rw [applyRegistrations_get_of_notMem regs emptyFilters id h]
  rfl

/-- Witness for C5: after registering only under identifier `0`, looking
up identifier `1` yields `none`. -/
theorem get_unregistered_witness :
    (1 : Int) ∉ ([((0 : Int), 7)] : List (Filter × Nat)).map Prod.fst ∧
      (applyRegistrations emptyFilters
        ([((0 : Int), 7)] : List (Filter × Nat))).Get 1 = none :=
  ⟨by decide, get_unregistered ([((0 : Int), 7)] : List (Filter × Nat)) 1 (by decide)⟩

/-- C6: after `Register id p`, with no later registration under `id`,
`Get id` returns `p`. -/
theorem get_after_register {α : Type} (s : FiltersList α) (id : Filter)
    (p : α) (later : List (Filter × α)) (h : id ∉ later.map Prod.fst) :
    (applyRegistrations (s.Register id p) later).Get id = some p := by
  rw [applyRegistrations_get_of_notMem later _ id h]
  simp [FiltersList.Get, FiltersList.Register]

/-- Witness for C6: register `5` under identifier `0`, then register under
identifier `2`; looking up `0` yields `5`. -/
theorem get_after_register_witness :
    (0 : Int) ∉ ([((2 : Int), 8)] : List (Filter × Nat)).map Prod.fst ∧
      (applyRegistrations ((emptyFilters : FiltersList Nat).Register 0 5)
        ([((2 : Int), 8)] : List (Filter × Nat))).Get 0 = some 5 :=
  ⟨by decide, get_after_register (emptyFilters : FiltersList Nat) 0 5
    ([((2 : Int), 8)] : List (Filter × Nat)) (by decide)⟩

/-- C7: `FilterFromName` scans `FilterPluginNames` in declaration order
and returns the first exact match: for every name in the list it returns
the smallest index holding that name, with a nil error. -/
theorem filterFromName_first_match (n : String) (h : n ∈ FilterPluginNames) :
    ∃ i : Nat, FilterFromName n = ((i : Int), none) ∧
      FilterPluginNames[i]? = some n ∧
      ∀ j < i, FilterPluginNames[j]? ≠ some n := by
  obtain ⟨k, h1, h2, h3⟩ := scanNames_of_mem n FilterPluginNames 0 h
  refine ⟨k, ?_, h2, h3⟩
  rw [FilterFromName, h1]
  norm_num

/-- Witness for C7 at the concrete name `"sample"`. -/
theorem filterFromName_first_match_witness :
    "sample" ∈ FilterPluginNames ∧
      ∃ i : Nat, FilterFromName "sample" = ((i : Int), none) ∧
        FilterPluginNames[i]? = some "sample" ∧
        ∀ j < i, FilterPluginNames[j]? ≠ some "sample" :=
  ⟨by decide, filterFromName_first_match "sample" (by decide)⟩

/-- C8: the concrete scenario over the canonical list `["nop","sample"]`:
`FilterFromName "sample"` returns `(1, nil)`; `Filter.String 1` is
`"sample"`; `Filter.String 99` is `"impossible"`; `FilterFromName "bogus"`
fails with an error message mentioning `"bogus"`. -/
theorem concrete_scenario :
    FilterFromName "sample" = (1, none) ∧
      Filter.String 1 = "sample" ∧
      Filter.String 99 = "impossible" ∧
      (FilterFromName "bogus").2 = some ("No filter named " ++ "bogus") ∧
      "bogus".data <:+: ("No filter named " ++ "bogus").data := by
  refine ⟨by decide, by decide, by decide, by decide, by decide⟩

/-- C9: `Register` modifies only the entry for its identifier: lookups at
any other identifier are unchanged (frame property). -/
theorem register_frame {α : Type} (s : FiltersList α) (id idOther : Filter)
    (p : α) (h : idOther ≠ id) :
    (s.Register id p).Get idOther = s.Get idOther := by
  simp [FiltersList.Get, FiltersList.Register, h]

/-- Witness for C9: registering under identifier `0` leaves the lookup at
identifier `1` unchanged. -/
theorem register_frame_witness :
    (1 : Int) ≠ (0 : Int) ∧
      ((emptyFilters : FiltersList Nat).Register 0 7).Get 1 =
        (emptyFilters : FiltersList Nat).Get 1 :=
  ⟨by decide, register_frame (emptyFilters : FiltersList Nat) 0 1 7 (by decide)⟩

/-- C10: on failure `FilterFromName` returns identifier `-1` with the
error; `-1` is outside the valid range, so rendering it with
`Filter.String` yields the sentinel `"impossible"`. -/
theorem filterFromName_failure_sentinel (n : String)
    (h : n ∉ FilterPluginNames) :
    (FilterFromName n).1 = -1 ∧ (FilterFromName n).2 ≠ none ∧
      (FilterFromName n).1 < 0 ∧
      Filter.String (FilterFromName n).1 = "impossible" := by
  have he : FilterFromName n = (-1, some ("No filter named " ++ n)) := by
    rw [FilterFromName]
    exact scanNames_of_notMem n FilterPluginNames 0 h
  refine ⟨?_, ?_, ?_, ?_⟩
  · rw [he]
  · rw [he]
    simp
  · rw [he]
    show (-1 : Int) < 0
    decide
  · rw [he]
    show Filter.String (-1) = "impossible"
    decide

/-- Witness for C10 at the concrete unknown name `"bogus"`. -/
theorem filterFromName_failure_sentinel_witness :
    "bogus" ∉ FilterPluginNames ∧
      ((FilterFromName "bogus").1 = -1 ∧ (FilterFromName "bogus").2 ≠ none ∧
        (FilterFromName "bogus").1 < 0 ∧
        Filter.String (FilterFromName "bogus").1 = "impossible") :=
  ⟨by decide, filterFromName_failure_sentinel "bogus" (by decide)⟩

end Beats
